import Mathlib

/-!
# hhga: the command-line entry point `main` (src/main.cpp)

A shallow embedding of `main` and `printUsage`.  The option parser
`getopt_long`, the BAM multi-reader, the VCF file, the FASTA reference and
the `HHGA` builder are collaborators of `main` declared in `hhga.hpp`; the
results they hand back to `main` are the fields of `World`, and every call
`main` makes on them is recorded, in program order, as an `Event`.
-/

namespace HHGA

/-- One result of `getopt_long (argc, argv, "hb:r:f:v:", long_options, ..)`:
the returned character code `c` and the value `optarg` has on return. The
list of results handed to `main` is the run of results before `getopt_long`
reports the end of the options. -/
structure GetoptResult where
  c : Int
  optarg : String
deriving DecidableEq, Repr

/-- State of a `BamMultiReader` object: the filenames it was opened on. -/
structure BamMultiReader where
  filenames : List String
deriving DecidableEq, Repr

/-- State of a `vcflib::VariantCallFile` object: the file it was opened on. -/
structure VariantCallFile where
  filename : String
deriving DecidableEq, Repr

/-- State of a `FastaReference` object: the file it was opened on. -/
structure FastaReference where
  filename : String
deriving DecidableEq, Repr

/-- An object of `main` passed as an argument to a constructor call. -/
inductive Arg where
  | str (s : String)
  | bam (r : BamMultiReader)
  | vcf (v : VariantCallFile)
  | fasta (f : FastaReference)
deriving DecidableEq, Repr

/-- The calls `main` makes on its collaborators and its writes to the two
output streams. -/
inductive Event where
  | stderr (s : String)
  | stdout (s : String)
  | bamOpen (filenames : List String)
  | vcfOpen (filename : String)
  | fastaOpen (filename : String)
  | hhgaConstruct (args : List Arg)
deriving DecidableEq, Repr

/-- What the collaborators answer: the result of `BamMultiReader::Open`, the
value of `is_open()` after `VariantCallFile::open`, and the string returned by
`str()` of the `HHGA` object built from a region string, a BAM reader and a
FASTA reference. Every call returns to `main`. -/
structure World where
  bamOpen : List String → Bool
  vcfOpen : String → Bool
  hhgaStr : String → BamMultiReader → FastaReference → String

/-- The local variables of `main` filled in by the option loop. -/
structure Vars where
  inputFilenames : List String := []
  vcf_file_name : String := ""
  region_string : String := ""
  fastaFile : String := ""
deriving DecidableEq, Repr

/-- The text `printUsage` writes to `cerr` (`argv0` is `argv[0]`). -/
def usageText (argv0 : String) : String :=
  "usage: " ++ argv0 ++ " [-b FILE]" ++ "\n"
    ++ "\n"
    ++ "options:" ++ "\n"
    ++ "    -h, --help            this dialog" ++ "\n"
    ++ "    -f, --fasta-reference FILE  the reference sequence" ++ "\n"
    ++ "    -b, --bam FILE        use this BAM as input (multiple allowed)" ++ "\n"
    ++ "    -r, --region REGION   limit output to those in this region (chr:start-end)" ++ "\n"
    ++ "\n"
    ++ "Generates reports on the rate of putative mutations or errors in the input alignment data." ++ "\n"
    ++ "Alignments are read from the specified files, or stdin if none are specified" ++ "\n"
    ++ "\n"
    ++ "authors: Erik Garrison <erik.garrison@gmail.com> and Nicolás Della Penna <nikete@gmail.com>" ++ "\n"

/-- Embedding of `printUsage`. -/
def printUsage (argv0 : String) : List Event :=
  [Event.stderr (usageText argv0)]

/-- The `while (true)` option loop of `main`: either `main` returns from
inside the loop (exit code and events), or the loop is left with the
variables it filled in. Character codes: `'?'` 63, `'h'` 104, `'b'` 98,
`'v'` 118, `'r'` 114, `'f'` 102. -/
def parseOptions (argv0 : String) : List GetoptResult → Vars → Except (Int × List Event) Vars
  | [], v => .ok v
  | g :: rest, v =>
    if g.c = -1 then .ok v
    else if g.c = 63 then .error (0, printUsage argv0)
    else if g.c = 104 then .error (0, printUsage argv0)
    else if g.c = 98 then
      parseOptions argv0 rest { v with inputFilenames := v.inputFilenames ++ [g.optarg] }
    else if g.c = 118 then
      parseOptions argv0 rest { v with vcf_file_name := g.optarg }
    else if g.c = 114 then
      parseOptions argv0 rest { v with region_string := g.optarg }
    else if g.c = 102 then
      parseOptions argv0 rest { v with fastaFile := g.optarg }
    else .error (1, [])

/-- The end of `main`: open the FASTA reference, build the `HHGA` object
from `(region_string, bam_reader, fasta_ref)` and write its `str()` and a
newline to `cout`; `pre` are the events before. -/
def build (w : World) (v : Vars) (bam_reader : BamMultiReader) (pre : List Event) :
    Int × List Event :=
  let fasta_ref : FastaReference := ⟨v.fastaFile⟩
  (0, pre ++ [Event.fastaOpen v.fastaFile,
              Event.hhgaConstruct
                [Arg.str v.region_string, Arg.bam bam_reader, Arg.fasta fasta_ref],
              Event.stdout (w.hhgaStr v.region_string bam_reader fasta_ref ++ "\n")])

/-- The part of `main` after the validation of the arguments: open the BAM
files, open the VCF file if one was named, then `build`. -/
def run (w : World) (v : Vars) : Int × List Event :=
  if !w.bamOpen v.inputFilenames then
    (1, [Event.bamOpen v.inputFilenames,
         Event.stderr ("could not open input BAM files" ++ "\n")])
  else
    let bam_reader : BamMultiReader := ⟨v.inputFilenames⟩
    if v.vcf_file_name ≠ "" then
      if !w.vcfOpen v.vcf_file_name then
        (1, [Event.bamOpen v.inputFilenames, Event.vcfOpen v.vcf_file_name,
             Event.stderr ("could not open " ++ v.vcf_file_name ++ "\n")])
      else
        build w v bam_reader [Event.bamOpen v.inputFilenames, Event.vcfOpen v.vcf_file_name]
    else
      build w v bam_reader [Event.bamOpen v.inputFilenames]

/-- The validation of the arguments in `main`, followed by `run`. -/
def validate (w : World) (argv0 : String) (v : Vars) : Int × List Event :=
  if v.fastaFile = "" then
    (1, Event.stderr ("no FASTA reference specified" ++ "\n") :: printUsage argv0)
  else if v.inputFilenames = [] then
    (1, Event.stderr ("no input files specified" ++ "\n") :: printUsage argv0)
  else if v.region_string = "" then
    (1, Event.stderr ("no target region given" ++ "\n") :: printUsage argv0)
  else run w v

/-- Embedding of `main`: the exit code and the events of the run, for the
results `opts` of `getopt_long` and the answers `w` of the collaborators. -/
def main (w : World) (argv0 : String) (opts : List GetoptResult) : Int × List Event :=
  match parseOptions argv0 opts {} with
  | .error r => r
  | .ok v => validate w argv0 v

end HHGA

/-!
# The alignment-matrix builder behind `HHGA`

`hhga.hpp` and the builder's implementation are not among the source files;
the definitions of this section follow the specification's data model (§3)
and component design (§4.3, §4.4).
-/

namespace HHGA.Core

/-- Modelled from the spec: the `Operation` of an aligned read (the builder's
read model is declared in the absent `hhga.hpp`): a tagged run length. -/
inductive Operation where
  | Match (length : Nat)
  | Insertion (length : Nat)
  | Deletion (length : Nat)
  | SoftClip (length : Nat)
  | HardClip (length : Nat)
deriving DecidableEq, Repr

/-- Modelled from the spec: the `Region` of the absent builder: a contig, an
inclusive start offset and an exclusive end offset (`stop` is the spec's
`end`). -/
structure Region where
  contig : String
  start : Int
  stop : Int
deriving DecidableEq, Repr

/-- Modelled from the spec: the `ReferenceWindow` of the absent builder: the
base sequence covering `[start, end)` of its region. -/
structure ReferenceWindow where
  region : Region
  bases : List Char
deriving DecidableEq, Repr

/-- Modelled from the spec: the `AlignedRead` of the absent builder. -/
structure AlignedRead where
  source : Nat
  start : Int
  ops : List Operation
  bases : List Char
  quals : List Nat
  mapq : Nat
  reverseStrand : Bool
deriving DecidableEq, Repr

/-- Modelled from the spec: the event kinds of a `DecodedEvent` of the absent
builder. -/
inductive EventKind where
  | matched
  | mismatch
  | insertion
  | deletion
  | clip
deriving DecidableEq, Repr

/-- Modelled from the spec: the `DecodedEvent` of the absent builder: the
reference position (absent for insertions and clips), the read base (`none`
is the gap marker), the quality value or none, and the kind. -/
structure DecodedEvent where
  refPos : Option Int
  base : Option Char
  qual : Option Nat
  kind : EventKind
deriving DecidableEq, Repr

/-- Modelled from the spec: a column of the `ColumnIndex` of the absent
builder: the reference-backed column of a position, or the `offset`-th
insertion column anchored at a position. -/
inductive Column where
  | ref (pos : Int)
  | ins (anchor : Int) (offset : Nat)
deriving DecidableEq, Repr

/-- Modelled from the spec: a cell of the `Matrix` of the absent builder: a
decoded event or the no-coverage marker. -/
inductive Cell where
  | event (e : DecodedEvent)
  | noCoverage
deriving DecidableEq, Repr

/-- Modelled from the spec: the `Matrix` of the absent builder, as its column
index and one row of cells per retained read. -/
structure Matrix where
  columns : List Column
  rows : List (List Cell)
deriving DecidableEq, Repr

/-- Modelled from the spec: the reference base of the absent builder's
`ReferenceWindow` at a position, none outside the window. -/
def ReferenceWindow.baseAt (w : ReferenceWindow) (p : Int) : Option Char :=
  if w.region.start ≤ p ∧ p < w.region.stop then w.bases[(p - w.region.start).toNat]? else none

/-- Modelled from the spec: one unit of length of an operation in the
Alignment Decoder of the absent builder (§4.3): the events emitted and the
advanced reference and read-base cursors; `none` is
`CigarLengthMismatchError`, the read-base cursor running past the base
sequence. A match-or-mismatch is a mismatch when the read base differs,
case-insensitively, from the reference base at the position. -/
def decodeUnit (w : ReferenceWindow) (rd : AlignedRead) (op : Operation)
    (refCursor : Int) (readCursor : Nat) : Option (List DecodedEvent × Int × Nat) :=
  match op with
  | .Match _ =>
    match rd.bases[readCursor]? with
    | none => none
    | some b =>
      let kind :=
        match w.baseAt refCursor with
        | some r => if b.toUpper ≠ r.toUpper then EventKind.mismatch else EventKind.matched
        | none => EventKind.matched
      some ([⟨some refCursor, some b, rd.quals[readCursor]?, kind⟩], refCursor + 1, readCursor + 1)
  | .Insertion _ =>
    match rd.bases[readCursor]? with
    | none => none
    | some b =>
      some ([⟨none, some b, rd.quals[readCursor]?, EventKind.insertion⟩], refCursor, readCursor + 1)
  | .Deletion _ =>
    some ([⟨some refCursor, none, none, EventKind.deletion⟩], refCursor + 1, readCursor)
  | .SoftClip _ =>
    match rd.bases[readCursor]? with
    | none => none
    | some b =>
      some ([⟨none, some b, rd.quals[readCursor]?, EventKind.clip⟩], refCursor, readCursor + 1)
  | .HardClip _ => some ([], refCursor, readCursor)

/-- Modelled from the spec: the length of an operation of the absent
builder's read model. -/
def Operation.length : Operation → Nat
  | .Match n => n
  | .Insertion n => n
  | .Deletion n => n
  | .SoftClip n => n
  | .HardClip n => n

/-- Modelled from the spec: `n` units of one operation in the Alignment
Decoder of the absent builder, one event per unit of length. -/
def decodeUnits (w : ReferenceWindow) (rd : AlignedRead) (op : Operation) :
    Nat → Int → Nat → Option (List DecodedEvent × Int × Nat)
  | 0, refCursor, readCursor => some ([], refCursor, readCursor)
  | n + 1, refCursor, readCursor =>
    match decodeUnit w rd op refCursor readCursor with
    | none => none
    | some (evs, refCursor1, readCursor1) =>
      match decodeUnits w rd op n refCursor1 readCursor1 with
      | none => none
      | some (rest, refCursor2, readCursor2) => some (evs ++ rest, refCursor2, readCursor2)

/-- Modelled from the spec: the walk of the operation list in the Alignment
Decoder of the absent builder. -/
def decodeOps (w : ReferenceWindow) (rd : AlignedRead) :
    List Operation → Int → Nat → Option (List DecodedEvent)
  | [], _, _ => some []
  | op :: ops, refCursor, readCursor =>
    match decodeUnits w rd op op.length refCursor readCursor with
    | none => none
    | some (evs, refCursor1, readCursor1) =>
      match decodeOps w rd ops refCursor1 readCursor1 with
      | none => none
      | some rest => some (evs ++ rest)

/-- Modelled from the spec: the Alignment Decoder of the absent builder: the
reference cursor starts at the read's start position, the read-base cursor
at 0. -/
def decode (w : ReferenceWindow) (rd : AlignedRead) : Option (List DecodedEvent) :=
  decodeOps w rd rd.ops rd.start 0

/-- Modelled from the spec: the column each event of a read of the absent
builder goes to: an event with a reference position goes to the column of
that position; an insertion event attaches to the last seen reference
position (`last`, the position before the read's start at first), in the
next free insertion column `k` there; clip events go to no column. -/
def placeEvents : Int → Nat → List DecodedEvent → List (Column × DecodedEvent)
  | _, _, [] => []
  | last, k, ev :: rest =>
    match ev.kind with
    | .clip => placeEvents last k rest
    | .insertion => (Column.ins last k, ev) :: placeEvents last (k + 1) rest
    | _ =>
      match ev.refPos with
      | some p => (Column.ref p, ev) :: placeEvents p 0 rest
      | none => placeEvents last k rest

/-- Modelled from the spec: pass 1 of the Column Matrix Builder of the absent
builder on one read (§4.4): per reference position within the region, an
insertion longer than seen before at that position grows the number of
insertion columns there. -/
def growWidths (r : Region) : (Int → Nat) → List (Column × DecodedEvent) → Int → Nat
  | widths, [] => widths
  | widths, (Column.ins p k, _) :: rest =>
    if r.start ≤ p ∧ p < r.stop ∧ widths p < k + 1 then
      growWidths r (fun q => if q = p then k + 1 else widths q) rest
    else growWidths r widths rest
  | widths, (Column.ref _, _) :: rest => growWidths r widths rest

/-- Modelled from the spec: pass 1 of the Column Matrix Builder of the absent
builder over all decoded reads, from the template with no insertion
column. -/
def insertionWidths (r : Region) (placed : List (List (Column × DecodedEvent))) : Int → Nat :=
  placed.foldl (growWidths r) (fun _ => 0)

/-- Modelled from the spec: the `n` insertion columns anchored at `p` from
offset `k` on, in the `ColumnIndex` of the absent builder. -/
def insertionColumns (p : Int) : Nat → Nat → List Column
  | _, 0 => []
  | k, n + 1 => Column.ins p k :: insertionColumns p (k + 1) n

/-- Modelled from the spec: the `ColumnIndex` of the absent builder over `n`
reference positions from `p`: one reference-backed column per position,
each followed by the insertion columns anchored there. -/
def columnsFrom (widths : Int → Nat) : Int → Nat → List Column
  | _, 0 => []
  | p, n + 1 => Column.ref p :: (insertionColumns p 0 (widths p) ++ columnsFrom widths (p + 1) n)

/-- Modelled from the spec: the finalized `ColumnIndex` of the absent
builder for a region. -/
def columnIndex (r : Region) (widths : Int → Nat) : List Column :=
  columnsFrom widths r.start (r.stop - r.start).toNat

/-- Modelled from the spec: the reference span of an operation list of the
absent builder's read model: the lengths of the reference-consuming
operations. -/
def referenceLength : List Operation → Nat
  | [] => 0
  | .Match n :: ops => n + referenceLength ops
  | .Deletion n :: ops => n + referenceLength ops
  | _ :: ops => referenceLength ops

/-- Modelled from the spec: the Read Stream Merger of the absent builder
keeps the reads whose aligned span intersects the region (§4.2). -/
def intersects (r : Region) (rd : AlignedRead) : Bool :=
  decide (rd.start < r.stop ∧ r.start < rd.start + referenceLength rd.ops)

/-- Modelled from the spec: the placed events of the retained reads of the
absent builder: reads outside the region and reads whose decoding fails are
dropped. -/
def placedReads (w : ReferenceWindow) (reads : List AlignedRead) :
    List (List (Column × DecodedEvent)) :=
  reads.filterMap (fun rd =>
    if intersects w.region rd then
      (decode w rd).map (placeEvents (rd.start - 1) 0)
    else none)

/-- Modelled from the spec: pass 2 of the Column Matrix Builder of the absent
builder on one read: one cell per column of the fixed column index, the
no-coverage marker where the read has no event. -/
def placeRow (columns : List Column) (placed : List (Column × DecodedEvent)) : List Cell :=
  columns.map (fun c =>
    match placed.find? (fun ce => ce.1 = c) with
    | some ce => Cell.event ce.2
    | none => Cell.noCoverage)

/-- Modelled from the spec: the Column Matrix Builder of the absent builder
(§4.4): pass 1 finalizes the column index, pass 2 writes each read into it. -/
def buildMatrix (w : ReferenceWindow) (reads : List AlignedRead) : Matrix :=
  let placed := placedReads w reads
  let columns := columnIndex w.region (insertionWidths w.region placed)
  { columns := columns, rows := placed.map (placeRow columns) }

/-- A reference-backed column. -/
def Column.isRef : Column → Bool
  | .ref _ => true
  | .ins _ _ => false

/-- The column an insertion column has to follow directly: its anchoring
reference column for the first insertion column of a position, the
insertion column before it of the same anchor for the later ones. -/
def Column.predecessor (p : Int) (k : Nat) : Column :=
  if k = 0 then Column.ref p else Column.ins p (k - 1)

/-- Checks, column by column, that each insertion column of a list directly
follows its predecessor; `prev` is the column before the list. -/
def anchoredAfter : Option Column → List Column → Bool
  | _, [] => true
  | _, Column.ref p :: rest => anchoredAfter (some (Column.ref p)) rest
  | prev, Column.ins p k :: rest =>
    decide (prev = some (Column.predecessor p k)) && anchoredAfter (some (Column.ins p k)) rest

/-- The region `chr1:100-110` with reference bases `ACGTACGTAC`. -/
def exampleWindow : ReferenceWindow := ⟨⟨"chr1", 100, 110⟩, "ACGTACGTAC".toList⟩

/-- Three reads on `chr1:100-110`: one with a two-base insertion after
position 104, one starting before the region with a clip, a deletion and a
trailing three-base insertion, and one outside the region. -/
def exampleReads : List AlignedRead :=
  [⟨0, 100, [.Match 5, .Insertion 2, .Match 5], "ACGTAGGTGTAC".toList, [], 60, false⟩,
   ⟨1, 98, [.SoftClip 1, .Match 6, .Deletion 2, .Match 2, .Insertion 3],
     "TTAACGTTTGGG".toList, [], 60, false⟩,
   ⟨1, 200, [.Match 6], "TTAACG".toList, [], 60, false⟩]

end HHGA.Core

namespace HHGA

/-! ## Vocabulary of the statements -/

/-- The results read by the option loop: those before the first `-1`. -/
def optionsRead (opts : List GetoptResult) : List GetoptResult :=
  opts.takeWhile (fun g => g.c ≠ -1)

/-- The arguments of the `-b`, `--bam` results, in the order they are yielded. -/
def bamArgs (opts : List GetoptResult) : List String :=
  opts.filterMap (fun g => if g.c = 98 then some g.optarg else none)

/-- The argument of the last result with code `c`, `dflt` when there is none. -/
def lastArg (c : Int) (dflt : String) (opts : List GetoptResult) : String :=
  opts.foldl (fun acc g => if g.c = c then g.optarg else acc) dflt

/-- The reference path given on the command line (`-f`, `--fasta-reference`). -/
def fastaArg (opts : List GetoptResult) : String := lastArg 102 "" opts

/-- The region given on the command line (`-r`, `--region`). -/
def regionArg (opts : List GetoptResult) : String := lastArg 114 "" opts

/-- The VCF path given on the command line (`-v`, `--vcf`). -/
def vcfArg (opts : List GetoptResult) : String := lastArg 118 "" opts

/-- A command line with no help and no unrecognised option: every result of
`getopt_long` is one of `'b'`, `'v'`, `'r'`, `'f'`. -/
def OptionsOnly (opts : List GetoptResult) : Prop :=
  ∀ g ∈ opts, g.c = 98 ∨ g.c = 118 ∨ g.c = 114 ∨ g.c = 102

instance (opts : List GetoptResult) : Decidable (OptionsOnly opts) := by
  unfold OptionsOnly; infer_instance

/-- An event that opens (calls open on) an alignment, variant or reference file. -/
def Event.isOpen : Event → Bool
  | .bamOpen _ => true
  | .vcfOpen _ => true
  | .fastaOpen _ => true
  | _ => false

/-- A write to standard output. -/
def Event.isStdout : Event → Bool
  | .stdout _ => true
  | _ => false

/-- A construction of the `HHGA` builder. -/
def Event.isConstruct : Event → Bool
  | .hhgaConstruct _ => true
  | _ => false

/-- The filename list of a `BamMultiReader::Open` call. -/
def Event.bamOpenArg : Event → Option (List String)
  | .bamOpen filenames => some filenames
  | _ => none

/-- The command line reaches the opening of the alignment sources: the
results read are all `'b'`, `'v'`, `'r'` or `'f'` and the arguments pass the
validation. -/
def ReachesOpen (opts : List GetoptResult) : Prop :=
  OptionsOnly (optionsRead opts) ∧ fastaArg (optionsRead opts) ≠ "" ∧
    bamArgs (optionsRead opts) ≠ [] ∧ regionArg (optionsRead opts) ≠ ""

instance (opts : List GetoptResult) : Decidable (ReachesOpen opts) := by
  unfold ReachesOpen; infer_instance

/-- A world in which every file opens and the report is a fixed function of
the builder's arguments. -/
def openWorld : World where
  bamOpen := fun _ => true
  vcfOpen := fun _ => true
  hhgaStr := fun region bam fasta =>
    region ++ "|" ++ String.intercalate "," bam.filenames ++ "|" ++ fasta.filename

/-- A world in which the BAM files open and no VCF file does. -/
def noVcfWorld : World where
  bamOpen := fun _ => true
  vcfOpen := fun _ => false
  hhgaStr := fun region _ _ => region

/-- A world in which no file opens. -/
def closedWorld : World where
  bamOpen := fun _ => false
  vcfOpen := fun _ => false
  hhgaStr := fun _ _ _ => ""

/-- The command line `-f ref.fa -b a.bam -b b.bam -r chr1:1-10 -v x.vcf`. -/
def fullOpts : List GetoptResult :=
  [⟨102, "ref.fa"⟩, ⟨98, "a.bam"⟩, ⟨98, "b.bam"⟩, ⟨114, "chr1:1-10"⟩, ⟨118, "x.vcf"⟩]

/-- The command line `-f ref.fa -b a.bam -r chr1:1-10`. -/
def plainOpts : List GetoptResult :=
  [⟨102, "ref.fa"⟩, ⟨98, "a.bam"⟩, ⟨114, "chr1:1-10"⟩]

/-- The command line `-f ref.fa -b "" -r chr1:1-10`. -/
def emptyBamOpts : List GetoptResult :=
  [⟨102, "ref.fa"⟩, ⟨98, ""⟩, ⟨114, "chr1:1-10"⟩]

/-- The command line `-f ref.fa -r chr1:1-10`, with no `-b` option. -/
def noBamOpts : List GetoptResult :=
  [⟨102, "ref.fa"⟩, ⟨114, "chr1:1-10"⟩]

/-! ## The option loop -/

theorem parseOptions_optionsOnly (argv0 : String) (opts : List GetoptResult)
    (h : OptionsOnly opts) (v : Vars) :
    parseOptions argv0 opts v = .ok
      { inputFilenames := v.inputFilenames ++ bamArgs opts
        vcf_file_name := lastArg 118 v.vcf_file_name opts
        region_string := lastArg 114 v.region_string opts
        fastaFile := lastArg 102 v.fastaFile opts } := by
  induction opts generalizing v with
  | nil => simp [parseOptions, bamArgs, lastArg]
  | cons g rest ih =>
    have hg := h g (List.mem_cons_self _ _)
    have hrest : OptionsOnly rest := fun x hx => h x (List.mem_cons_of_mem _ hx)
    rcases hg with hg | hg | hg | hg
    all_goals
      rw [parseOptions]
      simp only [hg]
      simp [ih hrest, bamArgs, lastArg, List.filterMap_cons, hg]

theorem parseOptions_optionsRead (argv0 : String) (opts : List GetoptResult) (v : Vars) :
    parseOptions argv0 opts v = parseOptions argv0 (optionsRead opts) v := by
  induction opts generalizing v with
  | nil => simp [optionsRead]
  | cons g rest ih =>
    by_cases h1 : g.c = -1
    · simp [optionsRead, parseOptions, h1]
    · have hr : optionsRead (g :: rest) = g :: optionsRead rest := by
        simp [optionsRead, List.takeWhile_cons, h1]
      rw [hr, parseOptions, parseOptions]
      simp only [h1, if_false]
      split_ifs <;> first | rfl | exact ih _

theorem optionsRead_ne (opts : List GetoptResult) : ∀ g ∈ optionsRead opts, g.c ≠ -1 := by
  intro g hg
  have := List.mem_takeWhile_imp hg
  simpa using this

theorem parseOptions_not_optionsOnly (argv0 : String) (opts : List GetoptResult)
    (hne : ∀ g ∈ opts, g.c ≠ -1) (h : ¬ OptionsOnly opts) (v : Vars) :
    ∃ r, parseOptions argv0 opts v = .error r ∧ (r.2 = printUsage argv0 ∨ r.2 = []) := by
  induction opts generalizing v with
  | nil => exact absurd (fun g hg => by simp at hg) h
  | cons g rest ih =>
    have h1 : g.c ≠ -1 := hne g (List.mem_cons_self _ _)
    have hne2 : ∀ x ∈ rest, x.c ≠ -1 := fun x hx => hne x (List.mem_cons_of_mem _ hx)
    have hrest : ¬ (g.c = 98 ∨ g.c = 118 ∨ g.c = 114 ∨ g.c = 102) ∨ ¬ OptionsOnly rest := by
      by_contra hc
      push_neg at hc
      apply h
      intro x hx
      rcases List.mem_cons.mp hx with rfl | hx
      · exact hc.1
      · exact hc.2 x hx
    rw [parseOptions]
    simp only [h1, if_false]
    by_cases c1 : g.c = 63
    · exact ⟨(0, printUsage argv0), by simp [c1], Or.inl rfl⟩
    by_cases c2 : g.c = 104
    · exact ⟨(0, printUsage argv0), by simp [c1, c2], Or.inl rfl⟩
    by_cases c3 : g.c = 98
    · simp only [c1, c2, c3, if_false, if_true]
      rcases hrest with hrest | hrest
      · exact absurd (Or.inl c3) hrest
      · exact ih hne2 hrest _
    by_cases c4 : g.c = 118
    · simp only [c1, c2, c3, c4, if_false, if_true]
      rcases hrest with hrest | hrest
      · exact absurd (Or.inr (Or.inl c4)) hrest
      · exact ih hne2 hrest _
    by_cases c5 : g.c = 114
    · simp only [c1, c2, c3, c4, c5, if_false, if_true]
      rcases hrest with hrest | hrest
      · exact absurd (Or.inr (Or.inr (Or.inl c5))) hrest
      · exact ih hne2 hrest _
    by_cases c6 : g.c = 102
    · simp only [c1, c2, c3, c4, c5, c6, if_false, if_true]
      rcases hrest with hrest | hrest
      · exact absurd (Or.inr (Or.inr (Or.inr c6))) hrest
      · exact ih hne2 hrest _
    · exact ⟨(1, []), by simp [c1, c2, c3, c4, c5, c6], Or.inr rfl⟩

theorem main_optionsRead (w : World) (argv0 : String) (opts : List GetoptResult) :
    main w argv0 opts = main w argv0 (optionsRead opts) := by
  simp only [main]
  rw [parseOptions_optionsRead]

theorem lastArg_of_absent (c : Int) (opts : List GetoptResult) (d : String)
    (h : ∀ g ∈ opts, g.c ≠ c) : lastArg c d opts = d := by
  induction opts generalizing d with
  | nil => rfl
  | cons g rest ih =>
    have hg : g.c ≠ c := h g (List.mem_cons_self _ _)
    simp only [lastArg, List.foldl_cons, hg, if_false]
    exact ih d (fun x hx => h x (List.mem_cons_of_mem _ hx))

theorem main_optionsOnly (w : World) (argv0 : String) (opts : List GetoptResult)
    (h : OptionsOnly opts) :
    main w argv0 opts = validate w argv0
      { inputFilenames := bamArgs opts
        vcf_file_name := vcfArg opts
        region_string := regionArg opts
        fastaFile := fastaArg opts } := by
  simp [main, parseOptions_optionsOnly argv0 opts h, vcfArg, regionArg, fastaArg]

/-! ## The claims -/

/-- C1: on a command line with no help or unrecognised option that gives a
non-empty reference path, at least one BAM path and a non-empty region, when
the BAM multi-reader opens and the VCF, if one is named, opens, `main` opens
the reference, constructs the HHGA builder from (region string, BAM reader,
FASTA reference), writes the builder's `str()` followed by a newline, and
nothing else, to standard output, and returns 0. -/
theorem main_builds_and_prints (w : World) (argv0 : String) (opts : List GetoptResult)
    (hopts : OptionsOnly opts) (hf : fastaArg opts ≠ "") (hb : bamArgs opts ≠ [])
    (hr : regionArg opts ≠ "") (hbam : w.bamOpen (bamArgs opts) = true)
    (hvcf : vcfArg opts ≠ "" → w.vcfOpen (vcfArg opts) = true) :
    main w argv0 opts =
      (0, Event.bamOpen (bamArgs opts) ::
        ((if vcfArg opts = "" then [] else [Event.vcfOpen (vcfArg opts)]) ++
          [Event.fastaOpen (fastaArg opts),
           Event.hhgaConstruct [Arg.str (regionArg opts), Arg.bam ⟨bamArgs opts⟩,
             Arg.fasta ⟨fastaArg opts⟩],
           Event.stdout (w.hhgaStr (regionArg opts) ⟨bamArgs opts⟩ ⟨fastaArg opts⟩ ++ "\n")]))
    ∧ (main w argv0 opts).2.filter Event.isStdout =
        [Event.stdout (w.hhgaStr (regionArg opts) ⟨bamArgs opts⟩ ⟨fastaArg opts⟩ ++ "\n")] := by
  rw [main_optionsOnly w argv0 opts hopts]
  by_cases hv : vcfArg opts = ""
  · simp [validate, run, build, hf, hb, hr, hbam, hv, Event.isStdout]
  · simp [validate, run, build, hf, hb, hr, hbam, hv, hvcf hv, Event.isStdout]

/-- C1 on `-f ref.fa -b a.bam -b b.bam -r chr1:1-10 -v x.vcf` when every file
opens. -/
theorem main_builds_and_prints_witness :
    OptionsOnly fullOpts ∧ fastaArg fullOpts ≠ "" ∧ bamArgs fullOpts ≠ [] ∧
    regionArg fullOpts ≠ "" ∧ openWorld.bamOpen (bamArgs fullOpts) = true ∧
    main openWorld "hhga" fullOpts =
      (0, [Event.bamOpen ["a.bam", "b.bam"], Event.vcfOpen "x.vcf", Event.fastaOpen "ref.fa",
           Event.hhgaConstruct [Arg.str "chr1:1-10", Arg.bam ⟨["a.bam", "b.bam"]⟩,
             Arg.fasta ⟨"ref.fa"⟩],
           Event.stdout "chr1:1-10|a.bam,b.bam|ref.fa\n"]) :=
  ⟨by decide, by decide, by decide, by decide, rfl,
    (main_builds_and_prints openWorld "hhga" fullOpts (by decide) (by decide) (by decide)
      (by decide) rfl (fun _ => rfl)).1⟩

/-- C2 (amended): on a command line with no help or unrecognised option,
`main` returns 1 without any open call on an alignment, variant or reference
file and without writing to standard output if and only if the reference
path is empty, or no `-b` option was given, or the region string is empty;
otherwise its first action is to open the alignment sources on the BAM
paths. A `-b` option whose argument is the empty string counts as a BAM
path. -/
theorem main_validation_iff (w : World) (argv0 : String) (opts : List GetoptResult)
    (hopts : OptionsOnly opts) :
    (((main w argv0 opts).1 = 1 ∧
        ∀ e ∈ (main w argv0 opts).2, e.isOpen = false ∧ e.isStdout = false) ↔
      (fastaArg opts = "" ∨ bamArgs opts = [] ∨ regionArg opts = "")) ∧
    (¬ (fastaArg opts = "" ∨ bamArgs opts = [] ∨ regionArg opts = "") →
      (main w argv0 opts).2.head? = some (Event.bamOpen (bamArgs opts))) := by
  rw [main_optionsOnly w argv0 opts hopts]
  by_cases hf : fastaArg opts = ""
  · simp [validate, hf, printUsage, Event.isOpen, Event.isStdout]
  by_cases hb : bamArgs opts = []
  · simp [validate, hf, hb, printUsage, Event.isOpen, Event.isStdout]
  by_cases hr : regionArg opts = ""
  · simp [validate, hf, hb, hr, printUsage, Event.isOpen, Event.isStdout]
  by_cases hbam : w.bamOpen (bamArgs opts) = true
  · by_cases hv : vcfArg opts = ""
    · simp [validate, run, build, hf, hb, hr, hbam, hv, Event.isOpen]
    · by_cases hvo : w.vcfOpen (vcfArg opts) = true
      · simp [validate, run, build, hf, hb, hr, hbam, hv, hvo, Event.isOpen]
      · simp [validate, run, build, hf, hb, hr, hbam, hv, hvo, Event.isOpen]
  · simp [validate, run, hf, hb, hr, hbam, Event.isOpen]

/-- C2 (amended) on `-f ref.fa -b a.bam -r chr1:1-10` when no file opens. -/
theorem main_validation_iff_witness :
    OptionsOnly plainOpts ∧
    ((((main closedWorld "hhga" plainOpts).1 = 1 ∧
        ∀ e ∈ (main closedWorld "hhga" plainOpts).2, e.isOpen = false ∧ e.isStdout = false) ↔
      (fastaArg plainOpts = "" ∨ bamArgs plainOpts = [] ∨ regionArg plainOpts = "")) ∧
    (¬ (fastaArg plainOpts = "" ∨ bamArgs plainOpts = [] ∨ regionArg plainOpts = "") →
      (main closedWorld "hhga" plainOpts).2.head? = some (Event.bamOpen (bamArgs plainOpts)))) :=
  ⟨by decide, main_validation_iff closedWorld "hhga" plainOpts (by decide)⟩

/-- C2 as stated fails on `-f ref.fa -b "" -r chr1:1-10`: the only `-b`
option has an empty-string argument, so by the claim the BAM path counts as
missing and `main` returns 1 without opening anything; the code goes on to
call `BamMultiReader::Open` on the list holding the empty path. -/
theorem empty_bam_argument_is_opened :
    OptionsOnly emptyBamOpts ∧ (∀ s ∈ bamArgs emptyBamOpts, s = "") ∧
    main closedWorld "hhga" emptyBamOpts =
      (1, [Event.bamOpen [""], Event.stderr "could not open input BAM files\n"]) ∧
    main openWorld "hhga" emptyBamOpts =
      (0, [Event.bamOpen [""], Event.fastaOpen "ref.fa",
           Event.hhgaConstruct [Arg.str "chr1:1-10", Arg.bam ⟨[""]⟩, Arg.fasta ⟨"ref.fa"⟩],
           Event.stdout "chr1:1-10||ref.fa\n"]) ∧
    ¬ ((main closedWorld "hhga" emptyBamOpts).1 = 1 ∧
        ∀ e ∈ (main closedWorld "hhga" emptyBamOpts).2,
          e.isOpen = false ∧ e.isStdout = false) := by
  decide

/-- C3: on a command line that passes the validation of the arguments, when
`BamMultiReader::Open` on the list of BAM paths returns false, `main` returns
1 after that call and a message on standard error: the HHGA builder is not
constructed, the VCF and FASTA files are not opened, and nothing is written
to standard output. -/
theorem bam_open_failure_aborts (w : World) (argv0 : String) (opts : List GetoptResult)
    (hopts : OptionsOnly opts) (hf : fastaArg opts ≠ "") (hb : bamArgs opts ≠ [])
    (hr : regionArg opts ≠ "") (hbam : w.bamOpen (bamArgs opts) = false) :
    main w argv0 opts =
      (1, [Event.bamOpen (bamArgs opts), Event.stderr "could not open input BAM files\n"])
    ∧ ∀ e ∈ (main w argv0 opts).2,
        e.isConstruct = false ∧ e.isStdout = false ∧
        (∀ n, e ≠ Event.vcfOpen n) ∧ (∀ n, e ≠ Event.fastaOpen n) := by
  rw [main_optionsOnly w argv0 opts hopts]
  simp [validate, run, hf, hb, hr, hbam, Event.isConstruct, Event.isStdout]

/-- C3 on `-f ref.fa -b a.bam -b b.bam -r chr1:1-10 -v x.vcf` when no file
opens. -/
theorem bam_open_failure_aborts_witness :
    OptionsOnly fullOpts ∧ fastaArg fullOpts ≠ "" ∧ bamArgs fullOpts ≠ [] ∧
    regionArg fullOpts ≠ "" ∧ closedWorld.bamOpen (bamArgs fullOpts) = false ∧
    main closedWorld "hhga" fullOpts =
      (1, [Event.bamOpen ["a.bam", "b.bam"],
           Event.stderr "could not open input BAM files\n"]) :=
  ⟨by decide, by decide, by decide, by decide, rfl,
    (bam_open_failure_aborts closedWorld "hhga" fullOpts (by decide) (by decide) (by decide)
      (by decide) rfl).1⟩

/-- C4: the variant file is optional. On a command line that passes the
validation and whose BAM files open: when no `-v` option is given, or the VCF
path it leaves is the empty string, `main` makes no open call on a variant
file and proceeds to the build; when a non-empty VCF path is given and the
file opens, `main` proceeds to the build; when it fails to open, `main`
returns 1 without constructing the HHGA builder and without writing to
standard output. -/
theorem vcf_is_optional (w : World) (argv0 : String) (opts : List GetoptResult)
    (hopts : OptionsOnly opts) (hf : fastaArg opts ≠ "") (hb : bamArgs opts ≠ [])
    (hr : regionArg opts ≠ "") (hbam : w.bamOpen (bamArgs opts) = true) :
    main w argv0 opts =
      if (∀ g ∈ opts, g.c ≠ 118) ∨ vcfArg opts = "" then
        (0, [Event.bamOpen (bamArgs opts), Event.fastaOpen (fastaArg opts),
             Event.hhgaConstruct [Arg.str (regionArg opts), Arg.bam ⟨bamArgs opts⟩,
               Arg.fasta ⟨fastaArg opts⟩],
             Event.stdout (w.hhgaStr (regionArg opts) ⟨bamArgs opts⟩ ⟨fastaArg opts⟩ ++ "\n")])
      else if w.vcfOpen (vcfArg opts) = true then
        (0, [Event.bamOpen (bamArgs opts), Event.vcfOpen (vcfArg opts),
             Event.fastaOpen (fastaArg opts),
             Event.hhgaConstruct [Arg.str (regionArg opts), Arg.bam ⟨bamArgs opts⟩,
               Arg.fasta ⟨fastaArg opts⟩],
             Event.stdout (w.hhgaStr (regionArg opts) ⟨bamArgs opts⟩ ⟨fastaArg opts⟩ ++ "\n")])
      else
        (1, [Event.bamOpen (bamArgs opts), Event.vcfOpen (vcfArg opts),
             Event.stderr ("could not open " ++ vcfArg opts ++ "\n")]) := by
  rw [main_optionsOnly w argv0 opts hopts]
  by_cases hv : vcfArg opts = ""
  · simp [validate, run, build, hf, hb, hr, hbam, hv]
  · have hex : ¬ ∀ g ∈ opts, g.c ≠ 118 := fun hall =>
      hv (lastArg_of_absent 118 opts "" hall)
    rw [if_neg (by tauto)]
    by_cases hvo : w.vcfOpen (vcfArg opts) = true
    · simp [validate, run, build, hf, hb, hr, hbam, hv, hvo]
    · simp [validate, run, build, hf, hb, hr, hbam, hv, hvo]

/-- C4 on a command line without `-v`, and on one with `-v x.vcf` when the
VCF file fails to open and when it opens. -/
theorem vcf_is_optional_witness :
    (OptionsOnly plainOpts ∧ fastaArg plainOpts ≠ "" ∧ bamArgs plainOpts ≠ [] ∧
      regionArg plainOpts ≠ "" ∧ noVcfWorld.bamOpen (bamArgs plainOpts) = true ∧
      main noVcfWorld "hhga" plainOpts =
        (0, [Event.bamOpen ["a.bam"], Event.fastaOpen "ref.fa",
             Event.hhgaConstruct [Arg.str "chr1:1-10", Arg.bam ⟨["a.bam"]⟩, Arg.fasta ⟨"ref.fa"⟩],
             Event.stdout "chr1:1-10\n"])) ∧
    (OptionsOnly fullOpts ∧
      main noVcfWorld "hhga" fullOpts =
        (1, [Event.bamOpen ["a.bam", "b.bam"], Event.vcfOpen "x.vcf",
             Event.stderr "could not open x.vcf\n"])) ∧
    main openWorld "hhga" fullOpts =
        (0, [Event.bamOpen ["a.bam", "b.bam"], Event.vcfOpen "x.vcf", Event.fastaOpen "ref.fa",
             Event.hhgaConstruct [Arg.str "chr1:1-10", Arg.bam ⟨["a.bam", "b.bam"]⟩,
               Arg.fasta ⟨"ref.fa"⟩],
             Event.stdout "chr1:1-10|a.bam,b.bam|ref.fa\n"]) :=
  ⟨⟨by decide, by decide, by decide, by decide, rfl,
      vcf_is_optional noVcfWorld "hhga" plainOpts (by decide) (by decide) (by decide)
        (by decide) rfl⟩,
   ⟨by decide,
      vcf_is_optional noVcfWorld "hhga" fullOpts (by decide) (by decide) (by decide)
        (by decide) rfl⟩,
   vcf_is_optional openWorld "hhga" fullOpts (by decide) (by decide) (by decide)
        (by decide) rfl⟩

/-- C5 (the code at the failing input): on
`-f ref.fa -b a.bam -b b.bam -r chr1:1-10 -v x.vcf` when every file opens,
`main` opens the VCF file and then constructs the HHGA builder from the
region string, the BAM reader and the FASTA reference only: the opened
variant file is not among the builder's arguments, while the BAM and FASTA
sources opened beside it are. -/
theorem vcf_not_passed_to_builder :
    OptionsOnly fullOpts ∧ vcfArg fullOpts = "x.vcf" ∧ openWorld.vcfOpen "x.vcf" = true ∧
    main openWorld "hhga" fullOpts =
      (0, [Event.bamOpen ["a.bam", "b.bam"], Event.vcfOpen "x.vcf", Event.fastaOpen "ref.fa",
           Event.hhgaConstruct [Arg.str "chr1:1-10", Arg.bam ⟨["a.bam", "b.bam"]⟩,
             Arg.fasta ⟨"ref.fa"⟩],
           Event.stdout "chr1:1-10|a.bam,b.bam|ref.fa\n"]) ∧
    ¬ ∃ args, Event.hhgaConstruct args ∈ (main openWorld "hhga" fullOpts).2 ∧
        Arg.vcf ⟨"x.vcf"⟩ ∈ args := by
  refine ⟨by decide, by decide, rfl, by decide, ?_⟩
  rintro ⟨args, hmem, hvcf⟩
  have hrun : main openWorld "hhga" fullOpts =
      (0, [Event.bamOpen ["a.bam", "b.bam"], Event.vcfOpen "x.vcf", Event.fastaOpen "ref.fa",
           Event.hhgaConstruct [Arg.str "chr1:1-10", Arg.bam ⟨["a.bam", "b.bam"]⟩,
             Arg.fasta ⟨"ref.fa"⟩],
           Event.stdout "chr1:1-10|a.bam,b.bam|ref.fa\n"]) := by decide
  rw [hrun] at hmem
  simp at hmem
  subst hmem
  simp at hvcf

set_option maxRecDepth 100000 in
/-- C6 (the code at the failing input): on `-f ref.fa -r chr1:1-10`, with no
`-b` option, `main` writes "no input files specified" and the usage text to
standard error and returns 1 in a world where every file opens: it opens
nothing, builds nothing and prints no report. The usage text written on this
very path says that alignments are read from stdin if no file is specified. -/
theorem no_bam_option_fails :
    OptionsOnly noBamOpts ∧ fastaArg noBamOpts = "ref.fa" ∧ regionArg noBamOpts = "chr1:1-10" ∧
    bamArgs noBamOpts = [] ∧
    main openWorld "hhga" noBamOpts =
      (1, [Event.stderr "no input files specified\n", Event.stderr (usageText "hhga")]) ∧
    ∃ before after, usageText "hhga" = before ++
      "Alignments are read from the specified files, or stdin if none are specified" ++ after :=
  ⟨by decide, by decide, by decide, by decide, rfl,
    "usage: hhga [-b FILE]\n\noptions:\n    -h, --help            this dialog\n    -f, --fasta-reference FILE  the reference sequence\n    -b, --bam FILE        use this BAM as input (multiple allowed)\n    -r, --region REGION   limit output to those in this region (chr:start-end)\n\nGenerates reports on the rate of putative mutations or errors in the input alignment data.\n",
    "\n\nauthors: Erik Garrison <erik.garrison@gmail.com> and Nicolás Della Penna <nikete@gmail.com>\n",
    rfl⟩

/-- C7: for every command line, `BamMultiReader::Open` is called at most
once, and the list of filenames it is handed is the sequence of the `-b`
arguments in the order the option parser yields them, duplicates kept,
nothing added; the call is made exactly when the options read are all of
`-b`, `-v`, `-r`, `-f` and the arguments pass the validation. -/
theorem bam_open_receives_bam_args (w : World) (argv0 : String) (opts : List GetoptResult) :
    (main w argv0 opts).2.filterMap Event.bamOpenArg =
      if ReachesOpen opts then [bamArgs (optionsRead opts)] else [] := by
  rw [main_optionsRead]
  by_cases hoo : OptionsOnly (optionsRead opts)
  · rw [main_optionsOnly w argv0 _ hoo]
    by_cases hf : fastaArg (optionsRead opts) = ""
    · simp [ReachesOpen, validate, hf, printUsage, Event.bamOpenArg]
    by_cases hb : bamArgs (optionsRead opts) = []
    · simp [ReachesOpen, validate, hf, hb, printUsage, Event.bamOpenArg]
    by_cases hr : regionArg (optionsRead opts) = ""
    · simp [ReachesOpen, validate, hf, hb, hr, printUsage, Event.bamOpenArg]
    have hreach : ReachesOpen opts := ⟨hoo, hf, hb, hr⟩
    rw [if_pos hreach]
    by_cases hbam : w.bamOpen (bamArgs (optionsRead opts)) = true
    · by_cases hv : vcfArg (optionsRead opts) = ""
      · simp [validate, run, build, hf, hb, hr, hbam, hv, Event.bamOpenArg]
      · by_cases hvo : w.vcfOpen (vcfArg (optionsRead opts)) = true
        · simp [validate, run, build, hf, hb, hr, hbam, hv, hvo, Event.bamOpenArg]
        · simp [validate, run, build, hf, hb, hr, hbam, hv, hvo, Event.bamOpenArg]
    · simp [validate, run, hf, hb, hr, hbam, Event.bamOpenArg]
  · have hreach : ¬ ReachesOpen opts := fun h => hoo h.1
    rw [if_neg hreach]
    obtain ⟨r, hr, hev⟩ :=
      parseOptions_not_optionsOnly argv0 (optionsRead opts) (optionsRead_ne opts) hoo {}
    simp only [main, hr]
    rcases hev with hev | hev
    · simp [hev, printUsage, Event.bamOpenArg]
    · simp [hev]

end HHGA

namespace HHGA.Core

/-! ## The column index of the matrix -/

theorem filter_isRef_insertionColumns (p : Int) (k n : Nat) :
    (insertionColumns p k n).filter Column.isRef = [] := by
  induction n generalizing k with
  | zero => rfl
  | succ n ih => simp [insertionColumns, Column.isRef, ih]

theorem length_filter_isRef_columnsFrom (widths : Int → Nat) (p : Int) (n : Nat) :
    ((columnsFrom widths p n).filter Column.isRef).length = n := by
  induction n generalizing p with
  | zero => rfl
  | succ n ih =>
    simp [columnsFrom, Column.isRef, List.filter_append, filter_isRef_insertionColumns, ih]

theorem anchoredAfter_insertionColumns (p : Int) (tail : List Column)
    (htail : ∀ prev, anchoredAfter prev tail = true) (n k : Nat) :
    anchoredAfter (some (Column.predecessor p k)) (insertionColumns p k n ++ tail) = true := by
  induction n generalizing k with
  | zero => simpa [insertionColumns] using htail _
  | succ n ih =>
    have h := ih (k + 1)
    simp only [Column.predecessor, Nat.add_sub_cancel, Nat.succ_ne_zero, if_false] at h
    simp [insertionColumns, anchoredAfter, h]

theorem anchoredAfter_columnsFrom (widths : Int → Nat) (n : Nat) (p : Int)
    (prev : Option Column) : anchoredAfter prev (columnsFrom widths p n) = true := by
  induction n generalizing p prev with
  | zero => rfl
  | succ n ih =>
    have h := anchoredAfter_insertionColumns p (columnsFrom widths (p + 1) n)
      (fun prev => ih (p + 1) prev) (widths p) 0
    simpa [columnsFrom, anchoredAfter, Column.predecessor] using h

theorem anchoredAfter_getElem (l : List Column) (prev : Option Column)
    (h : anchoredAfter prev l = true) (i : Nat) (p : Int) (k : Nat)
    (hi : l[i]? = some (Column.ins p k)) :
    (i = 0 ∧ prev = some (Column.predecessor p k)) ∨
      (0 < i ∧ l[i - 1]? = some (Column.predecessor p k)) := by
  induction l generalizing prev i with
  | nil => simp at hi
  | cons c rest ih =>
    cases i with
    | zero =>
      simp at hi
      subst hi
      simp [anchoredAfter] at h
      exact Or.inl ⟨rfl, h.1⟩
    | succ j =>
      have hj : rest[j]? = some (Column.ins p k) := by simpa using hi
      have hrest : anchoredAfter (some c) rest = true := by
        cases c with
        | ref q => simpa [anchoredAfter] using h
        | ins q m =>
          simp [anchoredAfter] at h
          exact h.2
      rcases ih (some c) hrest j hj with ⟨h0, hp⟩ | ⟨hpos, hp⟩
      · subst h0
        exact Or.inr ⟨Nat.succ_pos _, by simpa using hp⟩
      · refine Or.inr ⟨Nat.succ_pos _, ?_⟩
        obtain ⟨j', rfl⟩ : ∃ j', j = j' + 1 := ⟨j - 1, by omega⟩
        simpa using hp

theorem anchor_before_run (l : List Column)
    (h : ∀ (i : Nat) (p : Int) (k : Nat), l[i]? = some (Column.ins p k) →
      0 < i ∧ l[i - 1]? = some (Column.predecessor p k))
    (k : Nat) : ∀ (i : Nat) (p : Int), l[i]? = some (Column.ins p k) →
      k + 1 ≤ i ∧ l[i - (k + 1)]? = some (Column.ref p) := by
  induction k with
  | zero =>
    intro i p hi
    obtain ⟨hpos, hprev⟩ := h i p 0 hi
    exact ⟨hpos, by simpa [Column.predecessor] using hprev⟩
  | succ m ih =>
    intro i p hi
    obtain ⟨hpos, hprev⟩ := h i p (m + 1) hi
    have hprev2 : l[i - 1]? = some (Column.ins p m) := by
      simpa [Column.predecessor] using hprev
    obtain ⟨hle, hanchor⟩ := ih (i - 1) p hprev2
    refine ⟨by omega, ?_⟩
    have hidx : i - (m + 1 + 1) = i - 1 - (m + 1) := by omega
    rw [hidx]
    exact hanchor

/-- C8: for every region (start before end), reference window and list of
reads, the matrix of the Column Matrix Builder has exactly `end - start`
reference-backed columns, and every insertion column appears directly after
the reference column that anchors it: the column before it is that
reference column (first insertion column of the position) or the previous
insertion column of the same anchor, so that the `k`-th insertion column of a
position stands `k + 1` columns after the position's reference column. -/
theorem matrix_columns (w : ReferenceWindow) (reads : List AlignedRead)
    (hregion : w.region.start < w.region.stop) :
    ((((buildMatrix w reads).columns.filter Column.isRef).length : Nat) : Int)
      = w.region.stop - w.region.start ∧
    ∀ (i : Nat) (p : Int) (k : Nat),
      (buildMatrix w reads).columns[i]? = some (Column.ins p k) →
        0 < i ∧
        (buildMatrix w reads).columns[i - 1]? =
          some (if k = 0 then Column.ref p else Column.ins p (k - 1)) ∧
        k + 1 ≤ i ∧ (buildMatrix w reads).columns[i - (k + 1)]? = some (Column.ref p) := by
  have hpred : ∀ (i : Nat) (p : Int) (k : Nat),
      (buildMatrix w reads).columns[i]? = some (Column.ins p k) →
        0 < i ∧ (buildMatrix w reads).columns[i - 1]? = some (Column.predecessor p k) := by
    intro i p k hi
    have h := anchoredAfter_getElem _ none
      (anchoredAfter_columnsFrom (insertionWidths w.region (placedReads w reads))
        (w.region.stop - w.region.start).toNat w.region.start none) i p k hi
    rcases h with ⟨_, h⟩ | h
    · simp at h
    · exact h
  constructor
  · simp only [buildMatrix, columnIndex, length_filter_isRef_columnsFrom]
    omega
  · intro i p k hi
    obtain ⟨hpos, hprev⟩ := hpred i p k hi
    obtain ⟨hle, hanchor⟩ := anchor_before_run _ hpred k i p hi
    exact ⟨hpos, hprev, hle, hanchor⟩

/-- C8 on the example: ten reference-backed columns for `chr1:100-110`, two
insertion columns directly after the column of 104 and three directly after
the column of 107. -/
theorem matrix_columns_witness :
    exampleWindow.region.start < exampleWindow.region.stop ∧
    (buildMatrix exampleWindow exampleReads).columns =
      [.ref 100, .ref 101, .ref 102, .ref 103, .ref 104, .ins 104 0, .ins 104 1, .ref 105,
       .ref 106, .ref 107, .ins 107 0, .ins 107 1, .ins 107 2, .ref 108, .ref 109] ∧
    ((((buildMatrix exampleWindow exampleReads).columns.filter Column.isRef).length : Nat) : Int)
      = 110 - 100 ∧
    (buildMatrix exampleWindow exampleReads).columns[6 - 1]? =
      some (if 1 = 0 then Column.ref 104 else Column.ins 104 (1 - 1)) ∧
    (buildMatrix exampleWindow exampleReads).columns[12 - (2 + 1)]? = some (Column.ref 107) :=
  ⟨by decide, by decide,
    (matrix_columns exampleWindow exampleReads (by decide)).1,
    ((matrix_columns exampleWindow exampleReads (by decide)).2 6 104 1 (by decide)).2.1,
    ((matrix_columns exampleWindow exampleReads (by decide)).2 12 107 2 (by decide)).2.2.2⟩

end HHGA.Core
